import Mathlib

/-!
Verification development for the webhook message-synchronization engine of
this repository.  The definitions below are shallow embeddings of the Python
source files `scripts/sync.py`, `scripts/lib/discord_api.py` and
`scripts/lib/utils.py`:

* JSON-like structured values (`J`, `JList`, `JObj`) model Python
  dicts/lists/scalars in insertion order (Python dicts preserve insertion
  order and cannot hold duplicate keys).
* `stableHash` models `stable_hash` (sha-256 hex digest of
  `json.dumps(obj, ensure_ascii=False, sort_keys=True, separators=(",", ":"))`),
  `shaStr` models `sha` (sha-256 hex digest of the utf-8 encoded string).
  SHA-256 is implemented over `Nat` with explicit reduction mod 2^32.
* `upsertMessageStrict` models `upsert_message_strict` from `scripts/sync.py`,
  with the network modelled as a script: the list of responses that the
  successive `discord_request_raw` calls return (each entry is the final,
  non-429 response of one logical request).  The function returns the list of
  issued requests, the new state, the unconsumed script and the raised error
  (if any).
* `discordRequestRaw` and `discordRequest` model the two transport loops
  (`discord_request_raw` in `scripts/sync.py`, `discord_request` in
  `scripts/lib/discord_api.py`) at the level of HTTP attempts, recording the
  sequence of sleep durations (in seconds, as rationals).
* `loadState` models `load_state`, `saveStateFileStates` models the sequence
  of on-disk contents of the state file during `save_state`.
-/

/-! ## Python-style helpers -/

/-- Python truthiness of an optional string (`None` and `""` are falsy). -/
def pyTruthy : Option String → Bool
  | none => false
  | some s => !s.isEmpty

/-- Python string slicing `s[:n]` (by code points, like Lean characters). -/
def strTake (s : String) (n : Nat) : String := ⟨s.data.take n⟩

/-- Assignment `d[k] = v` on a Python dict modelled as an association list:
replaces the value in place if the key is present, else appends. -/
def setKey : List (String × α) → String → α → List (String × α)
  | [], k, v => [(k, v)]
  | (k', v') :: rest, k, v =>
    if k' = k then (k, v) :: rest else (k', v') :: setKey rest k v

/-! ## Structured values (JSON documents / Python dicts and lists) -/

mutual
inductive J where
  | null : J
  | bool : Bool → J
  | num : Int → J
  | str : String → J
  | arr : JList → J
  | obj : JObj → J
inductive JList where
  | nil : JList
  | cons : J → JList → JList
inductive JObj where
  | nil : JObj
  | cons : String → J → JObj → JObj
end

deriving instance DecidableEq for J

/-- The entries of a dict, as a Lean list (insertion order). -/
def JObj.toList : JObj → List (String × J)
  | .nil => []
  | .cons k v rest => (k, v) :: rest.toList

/-- Build a dict from a list of entries (insertion order). -/
def JObj.ofList : List (String × J) → JObj
  | [] => .nil
  | (k, v) :: rest => .cons k v (JObj.ofList rest)

/-- Python `d.get(k)` on a dict: first entry with the given key. -/
def JObj.get : JObj → String → Option J
  | .nil, _ => none
  | .cons k v rest, k' => if k = k' then some v else rest.get k'

/-- Python `k in d` on a dict. -/
def JObj.hasKey (d : JObj) (k : String) : Bool := (d.get k).isSome

/-- Python `d.setdefault(k, v)`: appends `(k, v)` at the end iff `k` is absent. -/
def JObj.setdefault (d : JObj) (k : String) (v : J) : JObj :=
  if d.hasKey k then d else
    match d with
    | .nil => .cons k v .nil
    | .cons k' v' rest => .cons k' v' (rest.setdefault k v)

/-- The keys of a dict, in order. -/
def JObj.keys : JObj → List String
  | .nil => []
  | .cons k _ rest => k :: rest.keys

/-! ## SHA-256 over `Nat` (explicit mod 2^32) -/

/-- Reduce to a 32-bit word. -/
def w32 (x : Nat) : Nat := x % 4294967296

/-- Right rotation of a 32-bit word. -/
def rotr (n x : Nat) : Nat := w32 ((x >>> n) ||| (x <<< (32 - n)))

def shaCh (e f g : Nat) : Nat := (e &&& f) ^^^ ((e ^^^ 4294967295) &&& g)

def shaMaj (a b c : Nat) : Nat := (a &&& b) ^^^ (a &&& c) ^^^ (b &&& c)

def bigSigma0 (x : Nat) : Nat := rotr 2 x ^^^ rotr 13 x ^^^ rotr 22 x

def bigSigma1 (x : Nat) : Nat := rotr 6 x ^^^ rotr 11 x ^^^ rotr 25 x

def smallSigma0 (x : Nat) : Nat := rotr 7 x ^^^ rotr 18 x ^^^ (x >>> 3)

def smallSigma1 (x : Nat) : Nat := rotr 17 x ^^^ rotr 19 x ^^^ (x >>> 10)

def shaK : List Nat :=
  [1116352408, 1899447441, 3049323471, 3921009573, 961987163,
   1508970993, 2453635748, 2870763221, 3624381080, 310598401,
   607225278, 1426881987, 1925078388, 2162078206, 2614888103,
   3248222580, 3835390401, 4022224774, 264347078, 604807628,
   770255983, 1249150122, 1555081692, 1996064986, 2554220882,
   2821834349, 2952996808, 3210313671, 3336571891, 3584528711,
   113926993, 338241895, 666307205, 773529912, 1294757372,
   1396182291, 1695183700, 1986661051, 2177026350, 2456956037,
   2730485921, 2820302411, 3259730800, 3345764771, 3516065817,
   3600352804, 4094571909, 275423344, 430227734, 506948616,
   659060556, 883997877, 958139571, 1322822218, 1537002063,
   1747873779, 1955562222, 2024104815, 2227730452, 2361852424,
   2428436474, 2756734187, 3204031479, 3329325298]

def shaH0 : List Nat :=
  [1779033703, 3144134277, 1013904242, 2773480762, 1359893119,
   2600822924, 528734635, 1541459225]

/-- One message-schedule extension step; `ws` holds the schedule so far,
most recent word first. -/
def shaWStep (ws : List Nat) : List Nat :=
  w32 (smallSigma1 (ws.getD 1 0) + ws.getD 6 0 +
       smallSigma0 (ws.getD 14 0) + ws.getD 15 0) :: ws

/-- Full 64-word message schedule of a 16-word block. -/
def shaSchedule (block : List Nat) : List Nat :=
  (shaWStep^[48] block.reverse).reverse

/-- One round of the compression function on the 8-word working state. -/
def shaRound (s : List Nat) (kw : Nat × Nat) : List Nat :=
  match s with
  | [a, b, c, d, e, f, g, h] =>
    let t1 := w32 (h + bigSigma1 e + shaCh e f g + kw.1 + kw.2)
    let t2 := w32 (bigSigma0 a + shaMaj a b c)
    [w32 (t1 + t2), a, b, c, w32 (d + t1), e, f, g]
  | s => s

/-- Process one 16-word block into the 8-word hash state. -/
def shaBlock (h : List Nat) (block : List Nat) : List Nat :=
  let s := (shaK.zip (shaSchedule block)).foldl shaRound h
  (h.zip s).map (fun p => w32 (p.1 + p.2))

/-- Big-endian bytes of a natural number, fixed width. -/
def natToBytesBE : Nat → Nat → List Nat
  | 0, _ => []
  | k + 1, n => natToBytesBE k (n / 256) ++ [n % 256]

/-- Group a byte list into big-endian 32-bit words (length multiple of 4). -/
def bytesToWords : List Nat → List Nat
  | b0 :: b1 :: b2 :: b3 :: rest =>
    (((b0 * 256 + b1) * 256 + b2) * 256 + b3) :: bytesToWords rest
  | _ => []

/-- Group a word list into 16-word blocks (length multiple of 16). -/
def wordsToBlocks : List Nat → List (List Nat)
  | [] => []
  | w :: ws => ((w :: ws).take 16) :: wordsToBlocks (ws.drop 15)
termination_by l => l.length
decreasing_by simp [List.length_drop]; omega

/-- SHA-256 padding of a byte message. -/
def shaPad (msg : List Nat) : List Nat :=
  let len := msg.length
  let zeros := (64 + 55 - (len + 1) % 64 + 1) % 64
  msg ++ [128] ++ List.replicate zeros 0 ++ natToBytesBE 8 (8 * len)

/-- Hex digit characters. -/
def hexDigit (n : Nat) : Char :=
  if n < 10 then Char.ofNat (48 + n) else Char.ofNat (87 + n)

/-- Fixed-width lowercase hex of a natural number. -/
def natToHex : Nat → Nat → List Char
  | 0, _ => []
  | k + 1, n => natToHex k (n / 16) ++ [hexDigit (n % 16)]

/-- SHA-256 of a byte message, as a lowercase hex string. -/
def sha256Hex (msg : List Nat) : String :=
  let final := (wordsToBlocks (bytesToWords (shaPad msg))).foldl shaBlock shaH0
  ⟨(final.map (natToHex 8)).flatten⟩

/-- UTF-8 encoding of one character (code point to bytes). -/
def utf8Char (c : Char) : List Nat :=
  let n := c.toNat
  if n < 128 then [n]
  else if n < 2048 then [192 ||| (n >>> 6), 128 ||| (n &&& 63)]
  else if n < 65536 then
    [224 ||| (n >>> 12), 128 ||| ((n >>> 6) &&& 63), 128 ||| (n &&& 63)]
  else
    [240 ||| (n >>> 18), 128 ||| ((n >>> 12) &&& 63),
     128 ||| ((n >>> 6) &&& 63), 128 ||| (n &&& 63)]

/-- UTF-8 encoding of a string. -/
def utf8 (s : String) : List Nat := (s.data.map utf8Char).flatten

/-- Model of `sha(text)` from `scripts/sync.py` and `scripts/lib/utils.py`:
`hashlib.sha256(text.encode("utf-8")).hexdigest()`. -/
def shaStr (text : String) : String := sha256Hex (utf8 text)

/-! ## Canonical JSON serialization (`json.dumps(..., ensure_ascii=False,
sort_keys=True, separators=(",", ":"))`) -/

/-- JSON string escaping as `json.dumps` with `ensure_ascii=False` performs
it: `"` and `\` are escaped, control characters use the short escapes or
`\u00XX`, everything else (including non-ASCII) is kept as is. -/
def jsonEscapeChar (c : Char) : List Char :=
  if c = '"' then ['\\', '"']
  else if c = '\\' then ['\\', '\\']
  else if c = '\n' then ['\\', 'n']
  else if c = '\t' then ['\\', 't']
  else if c = '\r' then ['\\', 'r']
  else if c.toNat = 8 then ['\\', 'b']
  else if c.toNat = 12 then ['\\', 'f']
  else if c.toNat < 32 then '\\' :: 'u' :: natToHex 4 c.toNat
  else [c]

/-- A JSON string literal. -/
def jsonQuote (s : String) : String :=
  ⟨'"' :: (s.data.map jsonEscapeChar).flatten ++ ['"']⟩

/-- Join with the `","` item separator of `separators=(",", ":")`. -/
def commaJoin : List String → String
  | [] => ""
  | [s] => s
  | s :: r :: rest => s ++ "," ++ commaJoin (r :: rest)

/-- Comparison of dict entries by key. -/
def leFst {α : Type} (a b : String × α) : Prop := a.1 ≤ b.1

instance {α : Type} : DecidableRel (@leFst α) := fun a b => inferInstanceAs (Decidable (a.1 ≤ b.1))

instance {α : Type} : IsTotal (String × α) leFst := ⟨fun a b => le_total a.1 b.1⟩

instance {α : Type} : IsTrans (String × α) leFst := ⟨fun _ _ _ h₁ h₂ => le_trans h₁ h₂⟩

/-- Sorting of dict entries by key, as `sort_keys=True` does (Python compares
strings by code points; keys of a dict are unique, so stability and ties are
irrelevant). -/
def sortByFst {α : Type} (l : List (String × α)) : List (String × α) :=
  l.insertionSort leFst

mutual
/-- Model of `json.dumps(v, ensure_ascii=False, sort_keys=True, separators=(",", ":"))`. -/
def serJ : J → String
  | .null => "null"
  | .bool b => if b then "true" else "false"
  | .num n => toString n
  | .str s => jsonQuote s
  | .arr l => "[" ++ serList l ++ "]"
  | .obj o =>
    "\x7b" ++
      commaJoin ((sortByFst (serEntries o)).map
        (fun p => jsonQuote p.1 ++ ":" ++ p.2)) ++ "\x7d"
def serList : JList → String
  | .nil => ""
  | .cons x .nil => serJ x
  | .cons x (.cons y rest) => serJ x ++ "," ++ serList (.cons y rest)
/-- The entries of a dict with serialized values, in insertion order. -/
def serEntries : JObj → List (String × String)
  | .nil => []
  | .cons k v rest => (k, serJ v) :: serEntries rest
end

/-- Model of `stable_hash(obj)` from `scripts/sync.py` and `scripts/lib/utils.py`:
sha-256 hex digest of the canonical, key-sorted JSON serialization. -/
def stableHash (v : J) : String := sha256Hex (utf8 (serJ v))

/-! ## Canonical form and key-order equivalence -/

mutual
/-- Recursively sort every dict of a structured value by key: the canonical,
key-order-independent form of the value. -/
def canonJ : J → J
  | .null => .null
  | .bool b => .bool b
  | .num n => .num n
  | .str s => .str s
  | .arr l => .arr (canonL l)
  | .obj o => .obj (JObj.ofList (sortByFst (canonEntries o)))
def canonL : JList → JList
  | .nil => .nil
  | .cons x rest => .cons (canonJ x) (canonL rest)
def canonEntries : JObj → List (String × J)
  | .nil => []
  | .cons k v rest => (k, canonJ v) :: canonEntries rest
end

/-- Two structured values are equal up to the ordering of keys in their
nested mappings iff they have the same canonical form: arrays keep their
order, dicts are compared without regard to entry order. -/
def KeyOrderEq (v₁ v₂ : J) : Prop := canonJ v₁ = canonJ v₂

instance (v₁ v₂ : J) : Decidable (KeyOrderEq v₁ v₂) :=
  inferInstanceAs (Decidable (canonJ v₁ = canonJ v₂))

/-- No duplicate keys in a key list. -/
def nodupKeysB (l : List String) : Bool := decide l.Nodup

mutual
/-- Well-formedness of a structured value as a Python value: every dict has
pairwise distinct keys (Python dicts cannot hold duplicate keys). -/
def wfJ : J → Bool
  | .null => true
  | .bool _ => true
  | .num _ => true
  | .str _ => true
  | .arr l => wfL l
  | .obj o => nodupKeysB o.keys && wfO o
def wfL : JList → Bool
  | .nil => true
  | .cons x rest => wfJ x && wfL rest
def wfO : JObj → Bool
  | .nil => true
  | .cons _ v rest => wfJ v && wfO rest
end

/-! ## Webhook-URL redaction
(`redact_discord_webhook_url` in `scripts/sync.py`:
`re.sub(r"(https?://discord\.com/api/webhooks/\d+/)[^/?]+", r"\1[REDACTED]", url)`) -/

/-- Strip a literal character prefix. -/
def stripLit : List Char → List Char → Option (List Char)
  | [], cs => some cs
  | _ :: _, [] => none
  | l :: ls, c :: cs => if c = l then stripLit ls cs else none

/-- Maximal non-empty run of characters satisfying `p` (greedy `+`). -/
def takeRun (p : Char → Bool) : List Char → Option (List Char × List Char)
  | [] => none
  | c :: cs =>
    if p c then
      match takeRun p cs with
      | some (run, rest) => some (c :: run, rest)
      | none => some ([c], cs)
    else none

/-- Try to match `(https?://discord\.com/api/webhooks/\d+/)[^/?]+` at the
head of the character list; on success returns the capture group (up to and
including the `/` after the digits) and the remainder after the token. -/
def matchWebhook (cs : List Char) : Option (List Char × List Char) :=
  match stripLit "http".data cs with
  | none => none
  | some r₁ =>
    let (sPart, r₂) : List Char × List Char :=
      match r₁ with
      | 's' :: t => (['s'], t)
      | _ => ([], r₁)
    match stripLit "://discord.com/api/webhooks/".data r₂ with
    | none => none
    | some r₃ =>
      match takeRun Char.isDigit r₃ with
      | none => none
      | some (digits, r₄) =>
        match r₄ with
        | '/' :: r₅ =>
          match takeRun (fun c => c ≠ '/' && c ≠ '?') r₅ with
          | none => none
          | some (_, r₆) =>
            some ("http".data ++ sPart ++ "://discord.com/api/webhooks/".data
                  ++ digits ++ ['/'], r₆)
        | _ => none

/-- Left-to-right scan replacing every match, as `re.sub` does.  Fuel is the
length of the input; every match consumes at least one character. -/
def redactAux : Nat → List Char → List Char
  | 0, cs => cs
  | _ + 1, [] => []
  | fuel + 1, c :: rest =>
    match matchWebhook (c :: rest) with
    | some (g₁, after) => g₁ ++ "[REDACTED]".data ++ redactAux fuel after
    | none => c :: redactAux fuel rest

/-- Model of `redact_discord_webhook_url(url)` from `scripts/sync.py`. -/
def redactWebhookUrl (url : String) : String :=
  ⟨redactAux url.data.length url.data⟩

/-! ## The upsert orchestrator (`upsert_message_strict` in `scripts/sync.py`) -/

/-- The persisted record of one item (`state["items"][item_key]`); every
field is read with `.get`, so absence is `none`. -/
structure SyncRec where
  message_id : Option String
  payload_hash : Option String
  source_hash : Option String
deriving DecidableEq, Repr

/-- The slice of the persisted state that the orchestrator touches:
`state["items"]` and `state["webhook_fp"]` (the translation cache keys
`tcache`/`torder` are handled only by the translation sidecar). -/
structure SyncSt where
  items : List (String × SyncRec)
  webhook_fp : List (String × String)
deriving DecidableEq, Repr

/-- One HTTP request issued through `discord_request_raw`. -/
structure Req where
  method : String
  url : String
deriving DecidableEq, Repr

/-- The final (non-429) response `discord_request_raw` returns for one
logical request: status code, the `id` field of the decoded JSON body
(`none` models both an undecodable body and a missing `"id"` key), and the
raw body text. -/
structure Resp where
  status : Nat
  jsonId : Option String
  text : String
deriving DecidableEq, Repr

/-- The message of the `RuntimeError` raised by `ensure_webhook_fingerprint`
on a fingerprint mismatch. -/
def fpMismatchMsg (webhookKey : String) : String :=
  "Webhook " ++ webhookKey ++ " a change (empreinte differente). " ++
  "Pour eviter les doublons, le script s arrete. " ++
  "Supprime les anciens messages ou reset volontairement state/state.json."

/-- The message of the `RuntimeError` raised on an unexpected Discord
status: the URL is embedded only after `redact_discord_webhook_url`
(the `!r` repr quoting of the 300-character body excerpt is elided). -/
def discordErrMsg (status : Nat) (method : String) (url : String)
    (body : String) : String :=
  "Discord error " ++ toString status ++ " " ++ method ++ " " ++
  redactWebhookUrl url ++ " (body: " ++ strTake body 300 ++ ")"

/-- The `KeyError` escaping from `data["id"]` when the create response carries
no message identifier (or no decodable JSON body). -/
def missingIdMsg : String := "KeyError: id"

/-- Modelling artefact: the response script was exhausted before the
function issued all its requests (does not arise from any real execution,
where every issued request gets a response). -/
def scriptExhaustedMsg : String := "script exhausted"

/-- Model of `ensure_webhook_fingerprint(state, webhook_key, webhook_url)`:
raises on a stored, truthy, different fingerprint; otherwise (re)writes
`state["webhook_fp"][webhook_key] = sha(webhook_url)`. -/
def ensureWebhookFingerprint (st : SyncSt) (webhookKey webhookUrl : String) :
    Except String SyncSt :=
  let fp := shaStr webhookUrl
  match st.webhook_fp.lookup webhookKey with
  | some old =>
    if old ≠ "" ∧ old ≠ fp then .error (fpMismatchMsg webhookKey)
    else .ok { st with webhook_fp := setKey st.webhook_fp webhookKey fp }
  | none => .ok { st with webhook_fp := setKey st.webhook_fp webhookKey fp }

/-- Result of one `upsert_message_strict` call: the requests issued (in
order), the state after the call, the unconsumed response script and the
raised error message (`none` on normal return). -/
structure UpsertOut where
  reqs : List Req
  state : SyncSt
  script : List Resp
  err : Option String
deriving DecidableEq, Repr

/-- The body of `upsert_message_strict` after the fingerprint check: the
skip / edit / recreate / create state machine over `state["items"]`. -/
def upsertBody (st₁ : SyncSt) (webhookUrl itemKey : String)
    (payloadM : JObj) (sourceHash : String) (script : List Resp) : UpsertOut :=
    let item := st₁.items.lookup itemKey
    let prevSource := item.bind (·.source_hash)
    if prevSource = some sourceHash then ⟨[], st₁, script, none⟩
    else
      let payloadHash := stableHash (.obj payloadM)
      let messageId := item.bind (·.message_id)
      if pyTruthy messageId then
        let mid := messageId.getD ""
        let editUrl := webhookUrl ++ "/messages/" ++ mid
        let patchReq : Req := ⟨"PATCH", editUrl⟩
        match script with
        | [] => ⟨[patchReq], st₁, [], some scriptExhaustedMsg⟩
        | r :: rest =>
          if r.status = 404 then
            let createUrl := webhookUrl ++ "?wait=true"
            let postReq : Req := ⟨"POST", createUrl⟩
            match rest with
            | [] => ⟨[patchReq, postReq], st₁, [], some scriptExhaustedMsg⟩
            | r₂ :: rest₂ =>
              if 200 ≤ r₂.status ∧ r₂.status < 300 then
                match r₂.jsonId with
                | some newId =>
                  let nr := SyncRec.mk (some newId) (some payloadHash) (some sourceHash)
                  ⟨[patchReq, postReq],
                   { st₁ with items := setKey st₁.items itemKey nr },
                   rest₂, none⟩
                | none => ⟨[patchReq, postReq], st₁, rest₂, some missingIdMsg⟩
              else
                ⟨[patchReq, postReq], st₁, rest₂,
                 some (discordErrMsg r₂.status "POST" createUrl r₂.text)⟩
          else if 200 ≤ r.status ∧ r.status < 300 then
            let nr := SyncRec.mk (some mid) (some payloadHash) (some sourceHash)
            ⟨[patchReq],
             { st₁ with items := setKey st₁.items itemKey nr },
             rest, none⟩
          else
            ⟨[patchReq], st₁, rest,
             some (discordErrMsg r.status "PATCH" editUrl r.text)⟩
      else
        let createUrl := webhookUrl ++ "?wait=true"
        let postReq : Req := ⟨"POST", createUrl⟩
        match script with
        | [] => ⟨[postReq], st₁, [], some scriptExhaustedMsg⟩
        | r :: rest =>
          if 200 ≤ r.status ∧ r.status < 300 then
            match r.jsonId with
            | some newId =>
              let nr := SyncRec.mk (some newId) (some payloadHash) (some sourceHash)
              ⟨[postReq],
               { st₁ with items := setKey st₁.items itemKey nr },
               rest, none⟩
            | none => ⟨[postReq], st₁, rest, some missingIdMsg⟩
          else
            ⟨[postReq], st₁, rest,
             some (discordErrMsg r.status "POST" createUrl r.text)⟩

/-- Model of `upsert_message_strict(session, state, webhook_key, webhook_url,
item_key, payload, source_hash)` from `scripts/sync.py`, with the network
modelled by the response script: sets the default `allowed_mentions`,
checks/establishes the destination fingerprint, then runs the upsert state
machine. -/
def upsertMessageStrict (st : SyncSt) (webhookKey webhookUrl itemKey : String)
    (payload : JObj) (sourceHash : String) (script : List Resp) : UpsertOut :=
  let payloadM := payload.setdefault "allowed_mentions"
    (.obj (.cons "parse" (.arr .nil) .nil))
  match ensureWebhookFingerprint st webhookKey webhookUrl with
  | .error e => ⟨[], st, script, some e⟩
  | .ok st₁ => upsertBody st₁ webhookUrl itemKey payloadM sourceHash script

/-! ## The batch driver (`main` in `scripts/sync.py`) -/

/-- One item of the batch: destination key and URL, item key, payload and
source hash, as handed to `upsert_message_strict` by `main`. -/
structure BatchItem where
  webhookKey : String
  webhookUrl : String
  itemKey : String
  payload : JObj
  sourceHash : String

/-- The driver loop of `main`: items are processed in order by
`upsert_message_strict`; there is no `try`/`except` around the calls, so a
raised error propagates and aborts the batch (remaining items are not
processed, and the final `save_state` is skipped). -/
def runBatch (st : SyncSt) : List BatchItem → List Resp → UpsertOut
  | [], script => ⟨[], st, script, none⟩
  | it :: rest, script =>
    let out := upsertMessageStrict st it.webhookKey it.webhookUrl it.itemKey
      it.payload it.sourceHash script
    match out.err with
    | some e => ⟨out.reqs, out.state, out.script, some e⟩
    | none =>
      let out₂ := runBatch out.state rest out.script
      ⟨out.reqs ++ out₂.reqs, out₂.state, out₂.script, out₂.err⟩

/-! ## Transport loops -/

/-- One HTTP response as seen by the 429 loop of `discord_request_raw` in
`scripts/sync.py`: status and the parsed `retry_after` field of the JSON
body (`none` models an undecodable body or a missing field, which the code
defaults to 1.0 second). -/
structure RawResp where
  status : Nat
  retryAfter : Option ℚ
  text : String
deriving DecidableEq, Repr

/-- Model of `discord_request_raw(session, method, url, **kwargs)` from
`scripts/sync.py`, driven by the script of successive responses: loops on
429 sleeping `retry_after + 0.25` seconds each time (re-issuing the
identical request), returns the first non-429 response.  Yields the list of
sleep durations and the returned response (`none` iff the script ran dry,
i.e. the server kept answering 429 for the whole script: the real loop has
no exit in that case). -/
def discordRequestRaw : List RawResp → List ℚ × Option RawResp
  | [] => ([], none)
  | r :: rest =>
    if r.status = 429 then
      let ra := r.retryAfter.getD 1
      let out := discordRequestRaw rest
      ((ra + 1/4) :: out.1, out.2)
    else ([], some r)

/-- One attempt outcome for `discord_request` in
`scripts/lib/discord_api.py`: either a `requests.RequestException` or a
response (status, parsed `retry_after`, body text, decoded JSON body). -/
inductive DAttempt where
  | exn (msg : String)
  | resp (status : Nat) (retryAfter : Option ℚ) (text : String) (jsonBody : Option J)
deriving DecidableEq

/-- Result of `discord_request`: a returned `(status, json, text)` triple, a
raised `DiscordHTTPError` (carrying status, url and body), or the modelling
artefact of an exhausted attempt script. -/
inductive DResult where
  | ok (status : Nat) (jsonBody : Option J) (text : String)
  | httpError (status : Nat) (url : String) (body : String)
  | stuck
deriving DecidableEq

/-- The message of a `DiscordHTTPError(status, url, body)`:
`f"Discord HTTP {status} sur {url} :: {body[:400]}"` — note the URL is
embedded unredacted. -/
def dhttpErrMsg (status : Nat) (url body : String) : String :=
  "Discord HTTP " ++ toString status ++ " sur " ++ url ++ " :: " ++ strTake body 400

/-- Model of `_sleep_backoff(attempt)`: `min(2 ** attempt, 20)` seconds. -/
def backoffSleep (attempt : Nat) : ℚ := min ((2 : ℚ) ^ attempt) 20

/-- The retry loop of `discord_request` (`for attempt in range(MAX_RETRIES)`
with `MAX_RETRIES = 6`): request exceptions and 5xx sleep the exponential
backoff; 429 sleeps `min(retry_after, 10.0)` (defaulting to 1.0) — all of
these consume an attempt; 2xx returns; 404 returns when `allow_404`; any
other status raises `DiscordHTTPError`; an exhausted budget raises
`DiscordHTTPError(0, url, f"Echec apres retries: {last_text}")`. -/
def discordRequestAux (allow404 : Bool) (url : String) :
    Nat → String → List DAttempt → List ℚ × DResult
  | attempt, lastText, script =>
    if attempt ≥ 6 then
      ([], .httpError 0 url ("Echec apres retries: " ++ lastText))
    else
      match script with
      | [] => ([], .stuck)
      | .exn m :: rest =>
        let out := discordRequestAux allow404 url (attempt + 1) m rest
        (backoffSleep attempt :: out.1, out.2)
      | .resp s ra txt js :: rest =>
        if s = 429 then
          let out := discordRequestAux allow404 url (attempt + 1) txt rest
          (min (ra.getD 1) 10 :: out.1, out.2)
        else if 200 ≤ s ∧ s < 300 then ([], .ok s js txt)
        else if s = 404 ∧ allow404 = true then ([], .ok 404 none txt)
        else if 500 ≤ s ∧ s < 600 ∧ attempt < 5 then
          let out := discordRequestAux allow404 url (attempt + 1) txt rest
          (backoffSleep attempt :: out.1, out.2)
        else ([], .httpError s url txt)

/-- Model of `discord_request(session, method, url, ...)` from
`scripts/lib/discord_api.py`. -/
def discordRequest (allow404 : Bool) (url : String) (script : List DAttempt) :
    List ℚ × DResult :=
  discordRequestAux allow404 url 0 "" script

/-! ## Persisted state: `load_state` and `save_state` (`scripts/sync.py`) -/

/-- The fresh, well-formed empty state document `load_state` returns when no
state file exists. -/
def emptyStateDoc : J :=
  .obj (.cons "v" (.num 2) (.cons "items" (.obj .nil)
    (.cons "webhook_fp" (.obj .nil) (.cons "tcache" (.obj .nil)
      (.cons "torder" (.arr .nil) .nil)))))

/-- The legacy migration loop: each entry of the old `messages` mapping
becomes `{"message_id": v.get("message_id"), "payload_hash": v.get("hash")}`
(a non-dict entry would raise `AttributeError` on `.get`). -/
def migrateEntries : JObj → Except String JObj
  | .nil => .ok .nil
  | .cons k v rest =>
    match v with
    | .obj vo =>
      match migrateEntries rest with
      | .error e => .error e
      | .ok r =>
        .ok (.cons k (.obj (.cons "message_id" ((vo.get "message_id").getD .null)
          (.cons "payload_hash" ((vo.get "hash").getD .null) .nil))) r)
    | _ => .error "AttributeError: get"

/-- The trailing `state.setdefault(...)` calls of `load_state`, in source
order. -/
def applySetdefaults (d : JObj) : JObj :=
  ((((d.setdefault "v" (.num 2)).setdefault "items" (.obj .nil)).setdefault
    "webhook_fp" (.obj .nil)).setdefault "tcache" (.obj .nil)).setdefault
    "torder" (.arr .nil)

/-- Model of `load_state()` from `scripts/sync.py`; the argument is the parsed JSON
document of the state file, `none` when the file does not exist. -/
def loadState : Option J → Except String J
  | none => .ok emptyStateDoc
  | some (.obj d) =>
    if d.hasKey "messages" && !(d.hasKey "items") then
      match d.get "messages" with
      | some (.obj msgs) =>
        match migrateEntries msgs with
        | .error e => .error e
        | .ok items =>
          let fresh : JObj := .cons "v" (.num 2) (.cons "items" (.obj items)
            (.cons "webhook_fp" (.obj .nil) (.cons "tcache" (.obj .nil)
              (.cons "torder" (.arr .nil) .nil))))
          .ok (.obj (applySetdefaults fresh))
      | _ => .error "AttributeError: items"
    else .ok (.obj (applySetdefaults d))
  | some _ => .error "AttributeError: setdefault"

def spacesStr (n : Nat) : String := ⟨List.replicate n ' '⟩

mutual
/-- Model of `json.dump(state, f, ensure_ascii=False, indent=2)`: the pretty-printed
document written by `save_state` (insertion order, two-space indent). -/
def dumpJ (ind : Nat) : J → String
  | .null => "null"
  | .bool b => if b then "true" else "false"
  | .num n => toString n
  | .str s => jsonQuote s
  | .arr .nil => "[]"
  | .arr (.cons x rest) =>
    "[\n" ++ dumpListItems (ind + 2) (.cons x rest) ++ "\n" ++ spacesStr ind ++ "]"
  | .obj .nil => "\x7b\x7d"
  | .obj (.cons k v rest) =>
    "\x7b\n" ++ dumpObjItems (ind + 2) (.cons k v rest) ++ "\n" ++ spacesStr ind ++ "\x7d"
def dumpListItems (ind : Nat) : JList → String
  | .nil => ""
  | .cons x .nil => spacesStr ind ++ dumpJ ind x
  | .cons x (.cons y r) =>
    spacesStr ind ++ dumpJ ind x ++ ",\n" ++ dumpListItems ind (.cons y r)
def dumpObjItems (ind : Nat) : JObj → String
  | .nil => ""
  | .cons k v .nil => spacesStr ind ++ jsonQuote k ++ ": " ++ dumpJ ind v
  | .cons k v (.cons k₂ v₂ r) =>
    spacesStr ind ++ jsonQuote k ++ ": " ++ dumpJ ind v ++ ",\n" ++
      dumpObjItems ind (.cons k₂ v₂ r)
end

/-- The sequence of on-disk contents of the state file over the course of
`save_state(state)`: the prior content, then the empty file the moment
`open(STATE_PATH, "w")` truncates it, then the completed document.
(`json.dump` actually streams many small writes; the intermediate partial
documents between the last two steps are omitted — the truncated state
already exhibits every property of interest.)  A save interrupted after
step `i` leaves the file holding entry `i` of this list. -/
def saveStateFileStates (oldContent : String) (state : J) : List String :=
  [oldContent, "", dumpJ 0 state]

/-! ## Claim-level auxiliary predicates -/

/-- The fingerprint gate passes for this destination: no stored fingerprint,
or a stored falsy/matching one (`if old and old != fp` is false). -/
def fpGateOk (st : SyncSt) (webhookKey webhookUrl : String) : Prop :=
  match st.webhook_fp.lookup webhookKey with
  | none => True
  | some old => old = "" ∨ old = shaStr webhookUrl

/-- The top-level keys of a state document. -/
def docKeys : J → List String
  | .obj d => d.keys
  | _ => []

/-- The fresh document built by the legacy migration branch of `load_state`
around a migrated `items` mapping. -/
def migratedDoc (items : JObj) : JObj :=
  .cons "v" (.num 2) (.cons "items" (.obj items)
    (.cons "webhook_fp" (.obj .nil) (.cons "tcache" (.obj .nil)
      (.cons "torder" (.arr .nil) .nil))))

/-! ## Substring occurrence (for reasoning about diagnostics) -/

/-- Does `needle` occur at the head of `hay`? -/
def matchesAt : List Char → List Char → Bool
  | [], _ => true
  | _ :: _, [] => false
  | a :: as, b :: bs => a = b && matchesAt as bs

/-- Does `needle` occur anywhere inside `hay`? -/
def containsSub (needle : List Char) : List Char → Bool
  | [] => matchesAt needle []
  | c :: rest => matchesAt needle (c :: rest) || containsSub needle rest

/-! ## Serialization is insensitive to dict key order -/

theorem eq_of_sorted_of_perm_of_nodupFst {α : Type} :
    ∀ {l₁ l₂ : List (String × α)}, l₁.Perm l₂ → l₁.Sorted leFst → l₂.Sorted leFst →
      (l₁.map Prod.fst).Nodup → l₁ = l₂ := by
  intro l₁
  induction l₁ with
  | nil =>
    intro l₂ hp _ _ _
    exact hp.nil_eq
  | cons a t ih =>
    intro l₂ hp hs₁ hs₂ hn
    cases l₂ with
    | nil => exact absurd hp.eq_nil (by simp)
    | cons b t₂ =>
      have hab : a = b := by
        by_contra hne
        have hat₂ : a ∈ t₂ := by
          rcases List.mem_cons.mp (hp.mem_iff.mp (List.mem_cons_self a t)) with h | h
          · exact absurd h hne
          · exact h
        have hbt : b ∈ t := by
          rcases List.mem_cons.mp (hp.mem_iff.mpr (List.mem_cons_self b t₂)) with h | h
          · exact absurd h.symm hne
          · exact h
        have h₁ : leFst a b := (List.pairwise_cons.mp hs₁).1 b hbt
        have h₂ : leFst b a := (List.pairwise_cons.mp hs₂).1 a hat₂
        have hfst : a.1 = b.1 := le_antisymm h₁ h₂
        rw [List.map_cons] at hn
        have hn' := List.nodup_cons.mp hn
        exact hn'.1 (hfst ▸ List.mem_map_of_mem Prod.fst hbt)
      subst hab
      rw [List.map_cons] at hn
      have ht : t = t₂ :=
        ih hp.cons_inv (List.pairwise_cons.mp hs₁).2 (List.pairwise_cons.mp hs₂).2
          (List.nodup_cons.mp hn).2
      rw [ht]

/-- Sorting by key is determined by the multiset of entries when keys are
pairwise distinct. -/
theorem sortByFst_eq_of_perm {α : Type} {xs ys : List (String × α)}
    (hp : xs.Perm ys) (hn : (xs.map Prod.fst).Nodup) : sortByFst xs = sortByFst ys := by
  apply eq_of_sorted_of_perm_of_nodupFst
  · exact (List.perm_insertionSort _ xs).trans (hp.trans (List.perm_insertionSort _ ys).symm)
  · exact List.sorted_insertionSort _ xs
  · exact List.sorted_insertionSort _ ys
  · exact (((List.perm_insertionSort _ xs).map Prod.fst).nodup_iff).mpr hn

theorem serEntries_ofList : (l : List (String × J)) →
    serEntries (JObj.ofList l) = l.map (fun p => (p.1, serJ p.2))
  | [] => rfl
  | (k, v) :: rest => by simp [JObj.ofList, serEntries, serEntries_ofList rest]

theorem canonEntries_keys : (o : JObj) → (canonEntries o).map Prod.fst = o.keys
  | .nil => rfl
  | .cons k v rest => by simp [canonEntries, JObj.keys, canonEntries_keys rest]

mutual
/-- Serializing the canonical form gives the same string: `serJ` already
emits every dict in key-sorted order. -/
theorem serJ_canonJ : (v : J) → wfJ v = true → serJ (canonJ v) = serJ v
  | .null, _ => rfl
  | .bool _, _ => rfl
  | .num _, _ => rfl
  | .str _, _ => rfl
  | .arr l, h => by
    have := serL_canonL l (by simpa [wfJ] using h)
    simp [canonJ, serJ, this]
  | .obj o, h => by
    have hwf := (Bool.and_eq_true _ _).mp (by simpa [wfJ] using h)
    have hkeys : o.keys.Nodup := of_decide_eq_true hwf.1
    have hrec : (canonEntries o).map (fun p => (p.1, serJ p.2)) = serEntries o :=
      serO_canonO o hwf.2
    have hperm : ((sortByFst (canonEntries o)).map (fun p => (p.1, serJ p.2))).Perm
        ((canonEntries o).map (fun p => (p.1, serJ p.2))) :=
      (List.perm_insertionSort _ _).map _
    have hnodup : (((sortByFst (canonEntries o)).map
        (fun p => (p.1, serJ p.2))).map Prod.fst).Nodup := by
      have h1 : ((sortByFst (canonEntries o)).map
          (fun p => (p.1, serJ p.2))).map Prod.fst =
          (sortByFst (canonEntries o)).map Prod.fst := by
        simp [List.map_map, Function.comp]
      rw [h1]
      have h2 : ((sortByFst (canonEntries o)).map Prod.fst).Perm
          ((canonEntries o).map Prod.fst) := (List.perm_insertionSort _ _).map _
      rw [canonEntries_keys] at h2
      exact h2.nodup_iff.mpr hkeys
    have hsorts : sortByFst ((sortByFst (canonEntries o)).map
        (fun p => (p.1, serJ p.2))) = sortByFst (serEntries o) := by
      rw [sortByFst_eq_of_perm hperm hnodup, hrec]
    simp only [canonJ, serJ, serEntries_ofList, hsorts]
theorem serL_canonL : (l : JList) → wfL l = true → serList (canonL l) = serList l
  | .nil, _ => rfl
  | .cons x .nil, h => by
    have := serJ_canonJ x (by simpa [wfL, wfJ] using h)
    simp [canonL, serList, this]
  | .cons x (.cons y rest), h => by
    have h' : wfJ x = true ∧ wfL (JList.cons y rest) = true := by
      simpa [wfL, Bool.and_eq_true, and_assoc] using h
    have h1 := serJ_canonJ x h'.1
    have h2 := serL_canonL (.cons y rest) h'.2
    simp only [canonL] at h2 ⊢
    simp [serList, h1, h2]
theorem serO_canonO : (o : JObj) → wfO o = true →
    (canonEntries o).map (fun p => (p.1, serJ p.2)) = serEntries o
  | .nil, _ => rfl
  | .cons k v rest, h => by
    have h' := (Bool.and_eq_true _ _).mp (by simpa [wfO] using h)
    have h1 := serJ_canonJ v h'.1
    have h2 := serO_canonO rest h'.2
    simp [canonEntries, serEntries, h1, h2]
end


/-! ## Association-list lemmas -/

theorem lookup_setKey_self {α : Type} : ∀ (l : List (String × α)) (k : String) (v : α),
    (setKey l k v).lookup k = some v
  | [], k, v => by simp [setKey, List.lookup]
  | (k', v') :: rest, k, v => by
    by_cases h : k' = k
    · simp [setKey, h, List.lookup]
    · simp only [setKey, if_neg h, List.lookup]
      have : (k == k') = false := by
        simp [beq_iff_eq]
        exact fun hh => h hh.symm
      simp [this, lookup_setKey_self rest k v]

theorem lookup_setKey_ne {α : Type} : ∀ (l : List (String × α)) (k k' : String) (v : α),
    k' ≠ k → (setKey l k v).lookup k' = l.lookup k'
  | [], k, k', v, hne => by
    simp only [setKey, List.lookup, beq_eq_false_iff_ne.mpr hne]
  | (k₀, v₀) :: rest, k, k', v, hne => by
    by_cases h : k₀ = k
    · subst h
      simp only [setKey, if_pos rfl, List.lookup, beq_eq_false_iff_ne.mpr hne]
    · simp only [setKey, if_neg h, List.lookup]
      cases hbeq : (k' == k₀) with
      | true => rfl
      | false => exact lookup_setKey_ne rest k k' v hne

/-! ## Branch lemmas for the orchestrator -/

theorem upsertBody_fp (st₁ : SyncSt) (wu ik : String) (pm : JObj) (h : String)
    (s : List Resp) : (upsertBody st₁ wu ik pm h s).state.webhook_fp = st₁.webhook_fp := by
  unfold upsertBody
  dsimp only
  repeat' split <;> try rfl

theorem upsertBody_err_items (st₁ : SyncSt) (wu ik : String) (pm : JObj) (h : String)
    (s : List Resp) (hsome : (upsertBody st₁ wu ik pm h s).err.isSome = true) :
    (upsertBody st₁ wu ik pm h s).state.items = st₁.items := by
  unfold upsertBody at hsome ⊢
  dsimp only at hsome ⊢
  repeat' split at hsome <;> repeat' split <;> simp_all

theorem upsertBody_skip (st₁ : SyncSt) (wu ik : String) (pm : JObj) (h : String)
    (s : List Resp) (hsync : (st₁.items.lookup ik).bind (·.source_hash) = some h) :
    upsertBody st₁ wu ik pm h s = ⟨[], st₁, s, none⟩ := by
  unfold upsertBody
  dsimp only
  rw [if_pos hsync]

theorem upsertBody_ok_sync (st₁ : SyncSt) (wu ik : String) (pm : JObj) (h : String)
    (s : List Resp) (hnone : (upsertBody st₁ wu ik pm h s).err = none) :
    ((upsertBody st₁ wu ik pm h s).state.items.lookup ik).bind (·.source_hash) = some h := by
  unfold upsertBody at hnone ⊢
  dsimp only at hnone ⊢
  repeat' split at hnone <;> repeat' split <;> simp_all [lookup_setKey_self]

theorem upsertBody_other_key (st₁ : SyncSt) (wu ik k : String) (pm : JObj) (h : String)
    (s : List Resp) (hk : k ≠ ik) :
    (upsertBody st₁ wu ik pm h s).state.items.lookup k = st₁.items.lookup k := by
  unfold upsertBody
  dsimp only
  repeat' split <;> try rfl
  all_goals simp only [lookup_setKey_ne _ _ _ _ hk]

theorem ensure_ok_shape (st : SyncSt) (wk wu : String) (st₁ : SyncSt)
    (h : ensureWebhookFingerprint st wk wu = .ok st₁) :
    st₁ = { st with webhook_fp := setKey st.webhook_fp wk (shaStr wu) } := by
  unfold ensureWebhookFingerprint at h
  dsimp only at h
  repeat' split at h <;> simp_all

theorem ensure_err_shape (st : SyncSt) (wk wu : String) (e : String)
    (h : ensureWebhookFingerprint st wk wu = .error e) : e = fpMismatchMsg wk := by
  unfold ensureWebhookFingerprint at h
  dsimp only at h
  repeat' split at h <;> simp_all

theorem ensure_mismatch (st : SyncSt) (wk wu old : String)
    (hfp : st.webhook_fp.lookup wk = some old) (h₁ : old ≠ "") (h₂ : old ≠ shaStr wu) :
    ensureWebhookFingerprint st wk wu = .error (fpMismatchMsg wk) := by
  unfold ensureWebhookFingerprint
  dsimp only
  rw [hfp]
  simp [h₁, h₂]

theorem ensure_of_not_mismatch (st : SyncSt) (wk wu : String)
    (hfp : ∀ old, st.webhook_fp.lookup wk = some old → old = "" ∨ old = shaStr wu) :
    ensureWebhookFingerprint st wk wu =
      .ok { st with webhook_fp := setKey st.webhook_fp wk (shaStr wu) } := by
  unfold ensureWebhookFingerprint
  dsimp only
  cases hlk : st.webhook_fp.lookup wk with
  | none => rfl
  | some old =>
    rcases hfp old hlk with h | h <;>
      simp [h]

theorem upsert_eq_of_ensure_err (st : SyncSt) (wk wu ik : String) (p : JObj)
    (h : String) (s : List Resp) (e : String)
    (hE : ensureWebhookFingerprint st wk wu = .error e) :
    upsertMessageStrict st wk wu ik p h s = ⟨[], st, s, some e⟩ := by
  unfold upsertMessageStrict
  rw [hE]

theorem upsert_eq_of_ensure_ok (st : SyncSt) (wk wu ik : String) (p : JObj)
    (h : String) (s : List Resp) (st₁ : SyncSt)
    (hE : ensureWebhookFingerprint st wk wu = .ok st₁) :
    upsertMessageStrict st wk wu ik p h s =
      upsertBody st₁ wu ik (p.setdefault "allowed_mentions"
        (.obj (.cons "parse" (.arr .nil) .nil))) h s := by
  unfold upsertMessageStrict
  rw [hE]

theorem upsert_err_items (st : SyncSt) (wk wu ik : String) (p : JObj) (h : String)
    (s : List Resp)
    (hsome : (upsertMessageStrict st wk wu ik p h s).err.isSome = true) :
    (upsertMessageStrict st wk wu ik p h s).state.items = st.items := by
  cases hE : ensureWebhookFingerprint st wk wu with
  | error e => rw [upsert_eq_of_ensure_err st wk wu ik p h s e hE]
  | ok st₁ =>
    rw [upsert_eq_of_ensure_ok st wk wu ik p h s st₁ hE] at hsome ⊢
    rw [upsertBody_err_items _ _ _ _ _ _ hsome]
    rw [ensure_ok_shape st wk wu st₁ hE]

theorem upsert_sync_skip (st : SyncSt) (wk wu ik : String) (p : JObj) (h : String)
    (s : List Resp) (hsync : (st.items.lookup ik).bind (·.source_hash) = some h) :
    (upsertMessageStrict st wk wu ik p h s).reqs = [] ∧
    (upsertMessageStrict st wk wu ik p h s).state.items = st.items ∧
    (upsertMessageStrict st wk wu ik p h s).script = s := by
  cases hE : ensureWebhookFingerprint st wk wu with
  | error e => rw [upsert_eq_of_ensure_err st wk wu ik p h s e hE]; exact ⟨rfl, rfl, rfl⟩
  | ok st₁ =>
    have hitems : st₁.items = st.items := by rw [ensure_ok_shape st wk wu st₁ hE]
    rw [upsert_eq_of_ensure_ok st wk wu ik p h s st₁ hE,
        upsertBody_skip st₁ wu ik _ h s (by rw [hitems]; exact hsync)]
    exact ⟨rfl, hitems, rfl⟩

theorem upsert_ok_sync (st : SyncSt) (wk wu ik : String) (p : JObj) (h : String)
    (s : List Resp)
    (hnone : (upsertMessageStrict st wk wu ik p h s).err = none) :
    ((upsertMessageStrict st wk wu ik p h s).state.items.lookup ik).bind
      (·.source_hash) = some h := by
  cases hE : ensureWebhookFingerprint st wk wu with
  | error e =>
    rw [upsert_eq_of_ensure_err st wk wu ik p h s e hE] at hnone
    simp at hnone
  | ok st₁ =>
    rw [upsert_eq_of_ensure_ok st wk wu ik p h s st₁ hE] at hnone ⊢
    exact upsertBody_ok_sync st₁ wu ik _ h s hnone

theorem upsert_other_key (st : SyncSt) (wk wu ik k : String) (p : JObj) (h : String)
    (s : List Resp) (hk : k ≠ ik) :
    (upsertMessageStrict st wk wu ik p h s).state.items.lookup k =
      st.items.lookup k := by
  cases hE : ensureWebhookFingerprint st wk wu with
  | error e => rw [upsert_eq_of_ensure_err st wk wu ik p h s e hE]
  | ok st₁ =>
    rw [upsert_eq_of_ensure_ok st wk wu ik p h s st₁ hE,
        upsertBody_other_key st₁ wu ik k _ h s hk, ensure_ok_shape st wk wu st₁ hE]

/-! ## Batch-driver lemmas -/

theorem runBatch_other_key (k : String) :
    ∀ (items : List BatchItem) (st : SyncSt) (s : List Resp),
      (∀ it ∈ items, it.itemKey ≠ k) →
      (runBatch st items s).state.items.lookup k = st.items.lookup k
  | [], st, s, _ => rfl
  | it :: rest, st, s, hks => by
    simp only [runBatch]
    split
    · exact upsert_other_key st it.webhookKey it.webhookUrl it.itemKey k it.payload
        it.sourceHash s (hks it (List.mem_cons_self it rest)).symm
    · rename_i heq
      have h₁ := runBatch_other_key k rest
        (upsertMessageStrict st it.webhookKey it.webhookUrl it.itemKey it.payload
          it.sourceHash s).state
        (upsertMessageStrict st it.webhookKey it.webhookUrl it.itemKey it.payload
          it.sourceHash s).script
        (fun it' hm => hks it' (List.mem_cons_of_mem it hm))
      rw [h₁]
      exact upsert_other_key st it.webhookKey it.webhookUrl it.itemKey k it.payload
        it.sourceHash s (hks it (List.mem_cons_self it rest)).symm

theorem runBatch_establishes :
    ∀ (items : List BatchItem) (st : SyncSt) (s : List Resp),
      (runBatch st items s).err = none →
      (items.map (·.itemKey)).Nodup →
      ∀ it ∈ items,
        ((runBatch st items s).state.items.lookup it.itemKey).bind (·.source_hash) =
          some it.sourceHash
  | [], _, _, _, _, it, hmem => absurd hmem (List.not_mem_nil it)
  | it₀ :: rest, st, s, hnone, hnd, it, hmem => by
    rw [List.map_cons, List.nodup_cons] at hnd
    simp only [runBatch] at hnone ⊢
    split at hnone
    · simp at hnone
    · rename_i heq
      rcases List.mem_cons.mp hmem with hhd | htl
      · subst hhd
        have hkeys : ∀ it' ∈ rest, it'.itemKey ≠ it.itemKey := by
          intro it' hm hcontra
          exact hnd.1 (hcontra ▸ List.mem_map_of_mem (·.itemKey) hm)
        rw [runBatch_other_key it.itemKey rest _ _ hkeys]
        exact upsert_ok_sync st it.webhookKey it.webhookUrl it.itemKey it.payload
          it.sourceHash s heq
      · exact runBatch_establishes rest _ _ hnone hnd.2 it htl

theorem runBatch_synced_reqs :
    ∀ (items : List BatchItem) (st : SyncSt) (s : List Resp),
      (∀ it ∈ items,
        (st.items.lookup it.itemKey).bind (·.source_hash) = some it.sourceHash) →
      (runBatch st items s).reqs = []
  | [], _, _, _ => rfl
  | it :: rest, st, s, hsync => by
    have hskip := upsert_sync_skip st it.webhookKey it.webhookUrl it.itemKey
      it.payload it.sourceHash s (hsync it (List.mem_cons_self it rest))
    simp only [runBatch]
    split
    · exact hskip.1
    · rw [hskip.1, List.nil_append]
      apply runBatch_synced_reqs rest
      intro it' hm
      rw [hskip.2.1]
      exact hsync it' (List.mem_cons_of_mem it hm)

/-- Every error `upsert_message_strict` raises is either the fingerprint
message, a `KeyError`, the modelling artefact for an exhausted script, or a
`Discord error ...` message built by `discordErrMsg` — which embeds the
request URL only through `redact_discord_webhook_url`. -/

theorem upsert_err_forms (st : SyncSt) (wk wu ik : String) (p : JObj) (h : String)
    (s : List Resp) (e : String)
    (he : (upsertMessageStrict st wk wu ik p h s).err = some e) :
    e = fpMismatchMsg wk ∨ e = scriptExhaustedMsg ∨ e = missingIdMsg ∨
    ∃ status method u body, e = discordErrMsg status method u body := by
  cases hE : ensureWebhookFingerprint st wk wu with
  | error e' =>
    rw [upsert_eq_of_ensure_err st wk wu ik p h s e' hE] at he
    simp only [Option.some.injEq] at he
    subst he
    exact Or.inl (ensure_err_shape st wk wu e' hE)
  | ok st₁ =>
    rw [upsert_eq_of_ensure_ok st wk wu ik p h s st₁ hE] at he
    unfold upsertBody at he
    dsimp only at he
    repeat' split at he <;>
      try first
        | (try dsimp only at he
           simp only [Option.some.injEq] at he
           subst he
           first
             | exact Or.inr (Or.inl (by with_reducible rfl))
             | exact Or.inr (Or.inr (Or.inl (by with_reducible rfl)))
             | exact Or.inr (Or.inr (Or.inr ⟨_, _, _, _, by with_reducible rfl⟩)))
        | (try dsimp only at he
           exact absurd he (by simp))

/-! ## `load_state` lemmas -/

theorem hasKey_setdefault_self : ∀ (d : JObj) (k : String) (v : J),
    ((d.setdefault k v).hasKey k) = true
  | .nil, k, v => by simp [JObj.setdefault, JObj.hasKey, JObj.get]
  | .cons k' v' rest, k, v => by
    unfold JObj.setdefault
    by_cases h : (JObj.cons k' v' rest).hasKey k = true
    · simp [h]
    · rw [if_neg h]
      by_cases hk : k' = k
      · exact absurd (by simp [JObj.hasKey, JObj.get, hk]) h
      · simp only [JObj.hasKey, JObj.get, if_neg hk]
        exact hasKey_setdefault_self rest k v

theorem hasKey_setdefault_of : ∀ (d : JObj) (k k' : String) (v : J),
    d.hasKey k' = true → (d.setdefault k v).hasKey k' = true
  | .nil, k, k', v, hh => by simp [JObj.hasKey, JObj.get] at hh
  | .cons k₀ v₀ rest, k, k', v, hh => by
    unfold JObj.setdefault
    by_cases h : (JObj.cons k₀ v₀ rest).hasKey k = true
    · simp [h, hh]
    · rw [if_neg h]
      by_cases hk : k₀ = k'
      · simp [JObj.hasKey, JObj.get, hk]
      · simp only [JObj.hasKey, JObj.get, if_neg hk] at hh ⊢
        exact hasKey_setdefault_of rest k k' v hh

theorem migrate_preserves : ∀ (msgs items' : JObj),
    migrateEntries msgs = .ok items' →
    ∀ k v, msgs.get k = some (.obj v) →
      items'.get k = some (.obj (.cons "message_id" ((v.get "message_id").getD .null)
        (.cons "payload_hash" ((v.get "hash").getD .null) .nil)))
  | .nil, items', hmig, k, v, hget => by simp [JObj.get] at hget
  | .cons k₀ v₀ rest, items', hmig, k, v, hget => by
    unfold migrateEntries at hmig
    cases v₀ with
    | obj vo =>
      dsimp only at hmig
      cases hrec : migrateEntries rest with
      | error e => rw [hrec] at hmig; exact absurd hmig (by simp)
      | ok r =>
        rw [hrec] at hmig
        simp only [Except.ok.injEq] at hmig
        subst hmig
        by_cases hk : k₀ = k
        · subst hk
          simp only [JObj.get, if_pos rfl] at hget ⊢
          have hvo : vo = v := by
            have h₂ := hget
            simp only [if_pos trivial, Option.some.injEq, J.obj.injEq] at h₂
            exact h₂
          subst hvo
          simp
        · simp only [JObj.get, if_neg hk] at hget ⊢
          exact migrate_preserves rest r hrec k v hget
    | null => exact absurd hmig (by simp)
    | bool b => exact absurd hmig (by simp)
    | num n => exact absurd hmig (by simp)
    | str s => exact absurd hmig (by simp)
    | arr l => exact absurd hmig (by simp)

/-- C1: whenever `upsert_message_strict` issues any mutating network call for a
destination key, the stored `ChannelFingerprint` for that key was absent,
falsy, or equal to the fingerprint of the configured connection secret (a
stored, truthy, different fingerprint makes the call raise before any
request), and the fingerprint is established in the resulting state before
the first mutation. -/
theorem C1_fingerprint_gate (st : SyncSt) (wk wu ik : String) (p : JObj) (h : String)
    (s : List Resp)
    (hreq : (upsertMessageStrict st wk wu ik p h s).reqs ≠ []) :
    (∀ old, st.webhook_fp.lookup wk = some old → old = "" ∨ old = shaStr wu) ∧
    (upsertMessageStrict st wk wu ik p h s).state.webhook_fp.lookup wk =
      some (shaStr wu) := by
  cases hE : ensureWebhookFingerprint st wk wu with
  | error e =>
    rw [upsert_eq_of_ensure_err st wk wu ik p h s e hE] at hreq
    exact absurd rfl hreq
  | ok st₁ =>
    constructor
    · intro old hold
      unfold ensureWebhookFingerprint at hE
      simp only [hold] at hE
      by_cases hc : old ≠ "" ∧ old ≠ shaStr wu
      · rw [if_pos hc] at hE
        exact absurd hE (by simp)
      · push_neg at hc
        by_cases h0 : old = ""
        · exact Or.inl h0
        · exact Or.inr (hc h0)
    · rw [upsert_eq_of_ensure_ok st wk wu ik p h s st₁ hE, upsertBody_fp,
          ensure_ok_shape st wk wu st₁ hE]
      exact lookup_setKey_self _ _ _

/-- Witness for C1 at a concrete create call with no stored fingerprint. -/
theorem C1_fingerprint_gate_witness :
    (∀ old, (SyncSt.mk [] []).webhook_fp.lookup "characters" = some old →
      old = "" ∨ old = shaStr "https://discord.com/api/webhooks/1/tok") ∧
    (upsertMessageStrict ⟨[], []⟩ "characters" "https://discord.com/api/webhooks/1/tok"
        "x" .nil "h1" [⟨200, some "5", "ok"⟩]).state.webhook_fp.lookup "characters" =
      some (shaStr "https://discord.com/api/webhooks/1/tok") :=
  C1_fingerprint_gate ⟨[], []⟩ "characters" "https://discord.com/api/webhooks/1/tok"
    "x" .nil "h1" [⟨200, some "5", "ok"⟩] (by decide)

/-- C2 (amended): for an item whose record holds a remote id and whose stored
hash equals the incoming hash, the upsert performs zero network calls, leaves
the items mapping and the response script untouched, and leaves the state
unchanged except possibly for establishing the destination fingerprint; and
a second batch run over distinct item keys after a successful run performs
zero network calls. -/
theorem C2_unchanged_skip (st : SyncSt) (wk wu ik : String) (p : JObj) (h : String)
    (s : List Resp) (r : SyncRec)
    (hit : st.items.lookup ik = some r)
    (hmid : pyTruthy r.message_id = true)
    (hsrc : r.source_hash = some h)
    (st₀ : SyncSt) (items : List BatchItem) (s₁ s₂ : List Resp)
    (hkeys : (items.map (·.itemKey)).Nodup)
    (hrun : (runBatch st₀ items s₁).err = none) :
    ((upsertMessageStrict st wk wu ik p h s).reqs = [] ∧
     (upsertMessageStrict st wk wu ik p h s).state.items = st.items ∧
     (upsertMessageStrict st wk wu ik p h s).script = s ∧
     ((upsertMessageStrict st wk wu ik p h s).state = st ∨
      (upsertMessageStrict st wk wu ik p h s).state =
        { st with webhook_fp := setKey st.webhook_fp wk (shaStr wu) })) ∧
    (runBatch ((runBatch st₀ items s₁).state) items s₂).reqs = [] := by
  have hsync : (st.items.lookup ik).bind (·.source_hash) = some h := by
    rw [hit]
    simpa using hsrc
  constructor
  · have hskip := upsert_sync_skip st wk wu ik p h s hsync
    refine ⟨hskip.1, hskip.2.1, hskip.2.2, ?_⟩
    cases hE : ensureWebhookFingerprint st wk wu with
    | error e =>
      rw [upsert_eq_of_ensure_err st wk wu ik p h s e hE]
      exact Or.inl rfl
    | ok st₁ =>
      have hitems : st₁.items = st.items := by rw [ensure_ok_shape st wk wu st₁ hE]
      rw [upsert_eq_of_ensure_ok st wk wu ik p h s st₁ hE,
          upsertBody_skip st₁ wu ik _ h s (by rw [hitems]; exact hsync)]
      exact Or.inr (ensure_ok_shape st wk wu st₁ hE)
  · apply runBatch_synced_reqs
    intro it hm
    exact runBatch_establishes items st₀ s₁ hrun hkeys it hm

/-- Counterexample to C2 as stated: with no stored fingerprint, the skip path
still mutates the persisted state (it establishes `webhook_fp`), so the state
is not left unchanged. -/
theorem C2_counterexample :
    (upsertMessageStrict ⟨[("x", ⟨some "42", none, some "h1"⟩)], []⟩ "wk" "wu" "x"
        .nil "h1" []).reqs = [] ∧
    (upsertMessageStrict ⟨[("x", ⟨some "42", none, some "h1"⟩)], []⟩ "wk" "wu" "x"
        .nil "h1" []).state ≠ ⟨[("x", ⟨some "42", none, some "h1"⟩)], []⟩ := by
  constructor
  · rfl
  · intro hcontra
    have h₁ := congrArg SyncSt.webhook_fp hcontra
    have h₂ : (upsertMessageStrict ⟨[("x", ⟨some "42", none, some "h1"⟩)], []⟩ "wk"
        "wu" "x" .nil "h1" []).state.webhook_fp = [("wk", shaStr "wu")] := rfl
    rw [h₂] at h₁
    exact absurd h₁ (by simp)

/-- Witness for C2 at a concrete synced record and one-item second run. -/
theorem C2_unchanged_skip_witness :
    ((upsertMessageStrict ⟨[("x", ⟨some "42", none, some "h1"⟩)], []⟩ "wk" "wu" "x"
        .nil "h1" []).reqs = [] ∧
     (upsertMessageStrict ⟨[("x", ⟨some "42", none, some "h1"⟩)], []⟩ "wk" "wu" "x"
        .nil "h1" []).state.items = [("x", ⟨some "42", none, some "h1"⟩)] ∧
     (upsertMessageStrict ⟨[("x", ⟨some "42", none, some "h1"⟩)], []⟩ "wk" "wu" "x"
        .nil "h1" []).script = [] ∧
     ((upsertMessageStrict ⟨[("x", ⟨some "42", none, some "h1"⟩)], []⟩ "wk" "wu" "x"
        .nil "h1" []).state = ⟨[("x", ⟨some "42", none, some "h1"⟩)], []⟩ ∨
      (upsertMessageStrict ⟨[("x", ⟨some "42", none, some "h1"⟩)], []⟩ "wk" "wu" "x"
        .nil "h1" []).state =
        ⟨[("x", ⟨some "42", none, some "h1"⟩)],
         setKey ([] : List (String × String)) "wk" (shaStr "wu")⟩)) ∧
    (runBatch ((runBatch ⟨[("y", ⟨some "7", none, some "g"⟩)], []⟩
        [⟨"wk2", "wu2", "y", .nil, "g"⟩] []).state)
      [⟨"wk2", "wu2", "y", .nil, "g"⟩] []).reqs = [] :=
  C2_unchanged_skip ⟨[("x", ⟨some "42", none, some "h1"⟩)], []⟩ "wk" "wu" "x"
    .nil "h1" [] ⟨some "42", none, some "h1"⟩ rfl (by decide) rfl
    ⟨[("y", ⟨some "7", none, some "g"⟩)], []⟩ [⟨"wk2", "wu2", "y", .nil, "g"⟩] [] []
    (by decide) rfl

/-- C3: when the PATCH against the stored remote id answers 404 and the
follow-up create succeeds, the upsert issues exactly one Create call
(`?wait=true`), persists the newly returned remote id with the new content
hash, and discards the old id. -/
theorem C3_update_notfound_recreate (st : SyncSt) (wk wu ik : String) (p : JObj)
    (h : String) (r : SyncRec) (j₀ : Option String) (t₀ : String) (r₂ : Resp)
    (rest : List Resp) (newId : String)
    (hfp : fpGateOk st wk wu)
    (hit : st.items.lookup ik = some r)
    (hmid : pyTruthy r.message_id = true)
    (hdiff : r.source_hash ≠ some h)
    (h2xx : 200 ≤ r₂.status ∧ r₂.status < 300)
    (hid : r₂.jsonId = some newId) :
    upsertMessageStrict st wk wu ik p h (⟨404, j₀, t₀⟩ :: r₂ :: rest) =
      ⟨[⟨"PATCH", wu ++ "/messages/" ++ r.message_id.getD ""⟩,
        ⟨"POST", wu ++ "?wait=true"⟩],
       ⟨setKey st.items ik ⟨some newId,
          some (stableHash (.obj (p.setdefault "allowed_mentions"
            (.obj (.cons "parse" (.arr .nil) .nil))))), some h⟩,
        setKey st.webhook_fp wk (shaStr wu)⟩,
       rest, none⟩ ∧
    ((upsertMessageStrict st wk wu ik p h (⟨404, j₀, t₀⟩ :: r₂ :: rest)).reqs.filter
      (fun q => q.method = "POST")).length = 1 := by
  have hE : ensureWebhookFingerprint st wk wu =
      .ok { st with webhook_fp := setKey st.webhook_fp wk (shaStr wu) } := by
    apply ensure_of_not_mismatch
    intro old hold
    unfold fpGateOk at hfp
    rw [hold] at hfp
    exact hfp
  have heq : upsertMessageStrict st wk wu ik p h (⟨404, j₀, t₀⟩ :: r₂ :: rest) =
      ⟨[⟨"PATCH", wu ++ "/messages/" ++ r.message_id.getD ""⟩,
        ⟨"POST", wu ++ "?wait=true"⟩],
       ⟨setKey st.items ik ⟨some newId,
          some (stableHash (.obj (p.setdefault "allowed_mentions"
            (.obj (.cons "parse" (.arr .nil) .nil))))), some h⟩,
        setKey st.webhook_fp wk (shaStr wu)⟩,
       rest, none⟩ := by
    rw [upsert_eq_of_ensure_ok st wk wu ik p h _ _ hE]
    unfold upsertBody
    simp [hit, hdiff, hmid, h2xx, hid]
  refine ⟨heq, ?_⟩
  rw [heq]
  simp [List.filter]

/-- Witness for C3 at a concrete 404-then-created script. -/
theorem C3_update_notfound_recreate_witness :
    upsertMessageStrict ⟨[("x", ⟨some "42", none, some "h1"⟩)], []⟩ "wk" "wu" "x"
        .nil "h2" [⟨404, none, "nf"⟩, ⟨200, some "77", "ok"⟩] =
      ⟨[⟨"PATCH", "wu" ++ "/messages/" ++ (some "42").getD ""⟩,
        ⟨"POST", "wu" ++ "?wait=true"⟩],
       ⟨setKey [("x", ⟨some "42", none, some "h1"⟩)] "x" ⟨some "77",
          some (stableHash (.obj (JObj.nil.setdefault "allowed_mentions"
            (.obj (.cons "parse" (.arr .nil) .nil))))), some "h2"⟩,
        setKey ([] : List (String × String)) "wk" (shaStr "wu")⟩,
       [], none⟩ ∧
    ((upsertMessageStrict ⟨[("x", ⟨some "42", none, some "h1"⟩)], []⟩ "wk" "wu" "x"
        .nil "h2" [⟨404, none, "nf"⟩, ⟨200, some "77", "ok"⟩]).reqs.filter
      (fun q => q.method = "POST")).length = 1 :=
  C3_update_notfound_recreate ⟨[("x", ⟨some "42", none, some "h1"⟩)], []⟩ "wk" "wu"
    "x" .nil "h2" ⟨some "42", none, some "h1"⟩ none "nf" ⟨200, some "77", "ok"⟩ []
    "77" (by simp [fpGateOk]) rfl (by decide) (by decide) (by decide) rfl

/-- Counterexample to C4 as stated: a record with `remote_id` absent but a
stored hash equal to the incoming hash performs zero Create calls (the hash
check precedes the remote-id check in `upsert_message_strict`). -/
theorem C4_counterexample :
    ((upsertMessageStrict ⟨[("x", ⟨none, none, some "h1"⟩)], []⟩ "wk" "wu" "x"
        .nil "h1" []).reqs = [] ∧
     (upsertMessageStrict ⟨[("x", ⟨none, none, some "h1"⟩)], []⟩ "wk" "wu" "x"
        .nil "h1" []).err = none) ∧
    (SyncRec.mk none none (some "h1")).message_id = none := by
  exact ⟨⟨rfl, rfl⟩, rfl⟩

/-- C4 (amended): for an item with no record, or one whose remote id is
falsy and whose stored hash differs from the incoming hash, the upsert
issues exactly one Create call in the wait-for-id variant (`?wait=true`)
and, on success, persists the returned remote id with the incoming hash. -/
theorem C4_create_new (st : SyncSt) (wk wu ik : String) (p : JObj) (h : String)
    (r₁ : Resp) (rest : List Resp) (newId : String)
    (hfp : fpGateOk st wk wu)
    (hrec : match st.items.lookup ik with
      | none => True
      | some r => pyTruthy r.message_id = false ∧ r.source_hash ≠ some h)
    (h2xx : 200 ≤ r₁.status ∧ r₁.status < 300)
    (hid : r₁.jsonId = some newId) :
    upsertMessageStrict st wk wu ik p h (r₁ :: rest) =
      ⟨[⟨"POST", wu ++ "?wait=true"⟩],
       ⟨setKey st.items ik ⟨some newId,
          some (stableHash (.obj (p.setdefault "allowed_mentions"
            (.obj (.cons "parse" (.arr .nil) .nil))))), some h⟩,
        setKey st.webhook_fp wk (shaStr wu)⟩,
       rest, none⟩ := by
  have hE : ensureWebhookFingerprint st wk wu =
      .ok { st with webhook_fp := setKey st.webhook_fp wk (shaStr wu) } := by
    apply ensure_of_not_mismatch
    intro old hold
    unfold fpGateOk at hfp
    rw [hold] at hfp
    exact hfp
  rw [upsert_eq_of_ensure_ok st wk wu ik p h _ _ hE]
  unfold upsertBody
  cases hit : st.items.lookup ik with
  | none => simp [hit, h2xx, hid, pyTruthy]
  | some r =>
    rw [hit] at hrec
    simp [hit, hrec.1, hrec.2, h2xx, hid]

/-- Witness for C4 at a concrete first-time create. -/
theorem C4_create_new_witness :
    upsertMessageStrict ⟨[], []⟩ "wk" "wu" "x" .nil "h1" [⟨200, some "9", "ok"⟩] =
      ⟨[⟨"POST", "wu" ++ "?wait=true"⟩],
       ⟨setKey ([] : List (String × SyncRec)) "x" ⟨some "9",
          some (stableHash (.obj (JObj.nil.setdefault "allowed_mentions"
            (.obj (.cons "parse" (.arr .nil) .nil))))), some "h1"⟩,
        setKey ([] : List (String × String)) "wk" (shaStr "wu")⟩,
       [], none⟩ :=
  C4_create_new ⟨[], []⟩ "wk" "wu" "x" .nil "h1" ⟨200, some "9", "ok"⟩ [] "9"
    (by simp [fpGateOk]) (by simp [List.lookup]) (by decide) rfl

/-- Counterexample to C5 as stated: a fatal per-item error (HTTP 500) on the
first item aborts the whole batch — the driver records nothing and the second
item is never attempted. -/
theorem C5_counterexample :
    (runBatch ⟨[("a", ⟨some "1", none, some "h0"⟩)], []⟩
        [⟨"wk", "wu", "a", .nil, "h1"⟩, ⟨"wk", "wu", "b", .nil, "h2"⟩]
        [⟨500, none, "boom"⟩, ⟨200, some "9", "ok"⟩]).err.isSome = true ∧
    (runBatch ⟨[("a", ⟨some "1", none, some "h0"⟩)], []⟩
        [⟨"wk", "wu", "a", .nil, "h1"⟩, ⟨"wk", "wu", "b", .nil, "h2"⟩]
        [⟨500, none, "boom"⟩, ⟨200, some "9", "ok"⟩]).reqs =
      [⟨"PATCH", "wu" ++ "/messages/" ++ "1"⟩] ∧
    (runBatch ⟨[("a", ⟨some "1", none, some "h0"⟩)], []⟩
        [⟨"wk", "wu", "a", .nil, "h1"⟩, ⟨"wk", "wu", "b", .nil, "h2"⟩]
        [⟨500, none, "boom"⟩, ⟨200, some "9", "ok"⟩]).state.items.lookup "b" =
      none := by
  refine ⟨rfl, by decide, by decide⟩

/-- C5 (amended): a fatal per-item error leaves that item record unmutated,
but the batch driver does not catch it: the error propagates and the batch
stops, with the remaining items unprocessed. -/
theorem C5_item_failure (st : SyncSt) (it : BatchItem) (rest : List BatchItem)
    (s : List Resp) (e : String)
    (he : (upsertMessageStrict st it.webhookKey it.webhookUrl it.itemKey
      it.payload it.sourceHash s).err = some e) :
    (upsertMessageStrict st it.webhookKey it.webhookUrl it.itemKey it.payload
      it.sourceHash s).state.items = st.items ∧
    runBatch st (it :: rest) s =
      ⟨(upsertMessageStrict st it.webhookKey it.webhookUrl it.itemKey it.payload
          it.sourceHash s).reqs,
       (upsertMessageStrict st it.webhookKey it.webhookUrl it.itemKey it.payload
          it.sourceHash s).state,
       (upsertMessageStrict st it.webhookKey it.webhookUrl it.itemKey it.payload
          it.sourceHash s).script,
       some e⟩ := by
  constructor
  · exact upsert_err_items st it.webhookKey it.webhookUrl it.itemKey it.payload
      it.sourceHash s (by rw [he]; rfl)
  · simp only [runBatch]
    split
    · rename_i e' heq
      rw [heq] at he
      simp only [Option.some.injEq] at he
      subst he
      rfl
    · rename_i heq
      rw [heq] at he
      exact absurd he (by simp)

/-- Witness for C5 at a concrete failing PATCH. -/
theorem C5_item_failure_witness :
    (upsertMessageStrict ⟨[("a", ⟨some "1", none, some "h0"⟩)], []⟩ "wk" "wu" "a"
        .nil "h1" [⟨500, none, "boom"⟩]).state.items =
      [("a", ⟨some "1", none, some "h0"⟩)] ∧
    runBatch ⟨[("a", ⟨some "1", none, some "h0"⟩)], []⟩
        [⟨"wk", "wu", "a", .nil, "h1"⟩, ⟨"wk", "wu", "b", .nil, "h2"⟩]
        [⟨500, none, "boom"⟩] =
      ⟨(upsertMessageStrict ⟨[("a", ⟨some "1", none, some "h0"⟩)], []⟩ "wk" "wu" "a"
          .nil "h1" [⟨500, none, "boom"⟩]).reqs,
       (upsertMessageStrict ⟨[("a", ⟨some "1", none, some "h0"⟩)], []⟩ "wk" "wu" "a"
          .nil "h1" [⟨500, none, "boom"⟩]).state,
       (upsertMessageStrict ⟨[("a", ⟨some "1", none, some "h0"⟩)], []⟩ "wk" "wu" "a"
          .nil "h1" [⟨500, none, "boom"⟩]).script,
       some (discordErrMsg 500 "PATCH" ("wu" ++ "/messages/" ++ "1") "boom")⟩ :=
  C5_item_failure ⟨[("a", ⟨some "1", none, some "h0"⟩)], []⟩
    ⟨"wk", "wu", "a", .nil, "h1"⟩ [⟨"wk", "wu", "b", .nil, "h2"⟩]
    [⟨500, none, "boom"⟩]
    (discordErrMsg 500 "PATCH" ("wu" ++ "/messages/" ++ "1") "boom") rfl

/-- Counterexample to C6 as stated: in `discord_request`, 429 retries are
limited by the shared `MAX_RETRIES = 6` budget (six straight 429s raise
`DiscordHTTPError` even though a 2xx follows), and the sleep is
`min(retry_after, 10)`, which is below a server-advised `retry_after = 15`. -/
theorem C6_counterexample :
    discordRequest false "u"
        (List.replicate 6 (.resp 429 (some 1) "r" none) ++
          [.resp 200 none "done" none]) =
      ([1, 1, 1, 1, 1, 1], .httpError 0 "u" ("Echec apres retries: " ++ "r")) ∧
    (∀ status js txt,
      (discordRequest false "u"
        (List.replicate 6 (.resp 429 (some 1) "r" none) ++
          [.resp 200 none "done" none])).2 ≠ .ok status js txt) ∧
    (discordRequest false "u"
        [.resp 429 (some 15) "r" none, .resp 200 none "ok" none]).1 = [10] ∧
    (10 : ℚ) < 15 := by
  have h₁ : discordRequest false "u"
      (List.replicate 6 (.resp 429 (some 1) "r" none) ++
        [.resp 200 none "done" none]) =
      ([1, 1, 1, 1, 1, 1], .httpError 0 "u" ("Echec apres retries: " ++ "r")) := by
    simp only [List.replicate, List.cons_append, List.nil_append, discordRequest,
      discordRequestAux]
    norm_num
  refine ⟨h₁, ?_, ?_, by norm_num⟩
  · intro status js txt hcontra
    rw [h₁] at hcontra
    exact absurd hcontra (by simp)
  · have h₂ : discordRequest false "u"
        [.resp 429 (some 15) "r" none, .resp 200 none "ok" none] =
        ([10], .ok 200 none "ok") := by
      simp only [discordRequest, discordRequestAux]
      norm_num
    rw [h₂]

/-- C6 (amended): `discord_request_raw` sleeps `retry_after + 0.25` seconds
(1.25 by default) before retrying the identical request with no retry
ceiling and no per-attempt cap; `discord_request` sleeps
`min(retry_after, 10)` and counts 429s against its 6-attempt budget; in
both, five consecutive 429s advertising `retry_after = 1` followed by a 2xx
succeed with total wait of at least 5 seconds. -/
theorem C6_rate_limit_behavior :
    (∀ (ra : ℚ) (t : String) (rest : List RawResp),
      discordRequestRaw (⟨429, some ra, t⟩ :: rest) =
        ((ra + 1/4) :: (discordRequestRaw rest).1, (discordRequestRaw rest).2)) ∧
    (∀ (t : String) (rest : List RawResp),
      discordRequestRaw (⟨429, none, t⟩ :: rest) =
        ((1 + 1/4) :: (discordRequestRaw rest).1, (discordRequestRaw rest).2)) ∧
    (∀ (allow : Bool) (u t : String) (js : Option J) (ra : ℚ) (rest : List DAttempt),
      discordRequest allow u (.resp 429 (some ra) t js :: rest) =
        ((min ra 10) :: (discordRequestAux allow u 1 t rest).1,
         (discordRequestAux allow u 1 t rest).2)) ∧
    (∀ (allow : Bool) (u lt : String) (script : List DAttempt),
      discordRequestAux allow u 6 lt script =
        ([], .httpError 0 u ("Echec apres retries: " ++ lt))) ∧
    (discordRequestRaw (List.replicate 5 ⟨429, some 1, "r"⟩ ++ [⟨200, none, "ok"⟩]) =
        ([5/4, 5/4, 5/4, 5/4, 5/4], some ⟨200, none, "ok"⟩) ∧
      (5 : ℚ) ≤ (discordRequestRaw (List.replicate 5 ⟨429, some 1, "r"⟩ ++
        [⟨200, none, "ok"⟩])).1.sum) ∧
    (discordRequest false "u" (List.replicate 5 (.resp 429 (some 1) "r" none) ++
        [.resp 200 none "ok" none]) = ([1, 1, 1, 1, 1], .ok 200 none "ok") ∧
      (5 : ℚ) ≤ (discordRequest false "u"
        (List.replicate 5 (.resp 429 (some 1) "r" none) ++
          [.resp 200 none "ok" none])).1.sum) := by
  have h₅ : discordRequestRaw (List.replicate 5 ⟨429, some 1, "r"⟩ ++
      [⟨200, none, "ok"⟩]) = ([5/4, 5/4, 5/4, 5/4, 5/4], some ⟨200, none, "ok"⟩) := by
    simp only [List.replicate, List.cons_append, List.nil_append, discordRequestRaw]
    norm_num
  have h₆ : discordRequest false "u" (List.replicate 5 (.resp 429 (some 1) "r" none) ++
      [.resp 200 none "ok" none]) = ([1, 1, 1, 1, 1], .ok 200 none "ok") := by
    simp only [List.replicate, List.cons_append, List.nil_append, discordRequest,
      discordRequestAux]
    norm_num
  refine ⟨fun ra t rest => rfl, fun t rest => rfl, fun allow u t js ra rest => rfl,
    fun allow u lt script => by unfold discordRequestAux; simp,
    ⟨h₅, by rw [h₅]; norm_num [List.sum]⟩, ⟨h₆, by rw [h₆]; norm_num [List.sum]⟩⟩

theorem dumpJ_obj_ne_empty (ind : Nat) (k : String) (v : J) (rest : JObj) :
    dumpJ ind (.obj (.cons k v rest)) ≠ "" := by
  unfold dumpJ
  intro hcontra
  have hlen := congrArg String.length hcontra
  simp only [String.length_append,
    show ("\x7b\n" : String).length = 2 from rfl,
    show ("\n" : String).length = 1 from rfl,
    show ("\x7d" : String).length = 1 from rfl,
    show ("" : String).length = 0 from rfl] at hlen
  omega

/-- C7: `save_state` opens the state file with mode `"w"` and writes the new
document in place — no write-to-temp-then-replace. An interruption right
after the truncating open leaves the file empty, which is neither the
complete old document nor the complete new one. -/
theorem C7_truncation_window :
    saveStateFileStates (dumpJ 0 emptyStateDoc)
        (.obj (.cons "v" (.num 2) (.cons "items"
          (.obj (.cons "x" (.obj (.cons "message_id" (.str "42") .nil)) .nil)) .nil))) =
      [dumpJ 0 emptyStateDoc, "",
       dumpJ 0 (.obj (.cons "v" (.num 2) (.cons "items"
         (.obj (.cons "x" (.obj (.cons "message_id" (.str "42") .nil)) .nil)) .nil)))] ∧
    "" ≠ dumpJ 0 emptyStateDoc ∧
    "" ≠ dumpJ 0 (.obj (.cons "v" (.num 2) (.cons "items"
      (.obj (.cons "x" (.obj (.cons "message_id" (.str "42") .nil)) .nil)) .nil))) := by
  refine ⟨rfl, ?_, ?_⟩
  · exact fun hcontra => dumpJ_obj_ne_empty 0 "v" (.num 2) _ hcontra.symm
  · exact fun hcontra => dumpJ_obj_ne_empty 0 "v" (.num 2) _ hcontra.symm

/-- Counterexample to C8 as stated: the `DiscordHTTPError` raised by
`discord_request` embeds the request URL unredacted, so the webhook token
(the connection secret) appears verbatim in the diagnostic, while
`redact_discord_webhook_url` would have removed it. -/
theorem C8_counterexample :
    discordRequest false "https://discord.com/api/webhooks/123/SECRETTOKEN"
        [.resp 403 none "forbidden" none] =
      ([], .httpError 403 "https://discord.com/api/webhooks/123/SECRETTOKEN"
        "forbidden") ∧
    containsSub "SECRETTOKEN".data
      (dhttpErrMsg 403 "https://discord.com/api/webhooks/123/SECRETTOKEN"
        "forbidden").data = true ∧
    containsSub "SECRETTOKEN".data
      (redactWebhookUrl "https://discord.com/api/webhooks/123/SECRETTOKEN").data =
      false := by
  exact ⟨by decide, by decide, by decide⟩

/-- C8 (amended): every failure diagnostic raised by `upsert_message_strict`
in `scripts/sync.py` is the fingerprint message, a `KeyError`, or a
`Discord error ...` message that embeds the request URL only through
`redact_discord_webhook_url`; redaction removes the webhook token. (The
`DiscordHTTPError` diagnostics of `scripts/lib/discord_api.py` embed the raw
URL — see the counterexample.) -/
theorem C8_redacted_diagnostics (st : SyncSt) (wk wu ik : String) (p : JObj)
    (h : String) (s : List Resp) (e : String)
    (he : (upsertMessageStrict st wk wu ik p h s).err = some e) :
    (e = fpMismatchMsg wk ∨ e = scriptExhaustedMsg ∨ e = missingIdMsg ∨
     ∃ status method u body, e = discordErrMsg status method u body) ∧
    containsSub "SECRETTOKEN".data
      (redactWebhookUrl ("https://discord.com/api/webhooks/123/SECRETTOKEN" ++
        "?wait=true")).data = false :=
  ⟨upsert_err_forms st wk wu ik p h s e he, by decide⟩

/-- Witness for C8 at a concrete failing PATCH diagnostic. -/
theorem C8_redacted_diagnostics_witness :
    ((discordErrMsg 500 "PATCH" ("wu" ++ "/messages/" ++ "1") "boom" =
        fpMismatchMsg "wk" ∨
      discordErrMsg 500 "PATCH" ("wu" ++ "/messages/" ++ "1") "boom" =
        scriptExhaustedMsg ∨
      discordErrMsg 500 "PATCH" ("wu" ++ "/messages/" ++ "1") "boom" = missingIdMsg ∨
      ∃ status method u body,
        discordErrMsg 500 "PATCH" ("wu" ++ "/messages/" ++ "1") "boom" =
          discordErrMsg status method u body) ∧
     containsSub "SECRETTOKEN".data
       (redactWebhookUrl ("https://discord.com/api/webhooks/123/SECRETTOKEN" ++
         "?wait=true")).data = false) :=
  C8_redacted_diagnostics ⟨[("a", ⟨some "1", none, some "h0"⟩)], []⟩ "wk" "wu" "a"
    .nil "h1" [⟨500, none, "boom"⟩]
    (discordErrMsg 500 "PATCH" ("wu" ++ "/messages/" ++ "1") "boom") rfl

/-- C9: `stable_hash` is deterministic, and for well-formed structured
values that are equal up to the ordering of keys in their nested mappings
(same canonical form) it returns the same digest. -/
theorem C9_stable_hash_key_order (v₁ v₂ : J) (hk : KeyOrderEq v₁ v₂)
    (w₁ : wfJ v₁ = true) (w₂ : wfJ v₂ = true) :
    stableHash v₁ = stableHash v₂ ∧
    ∀ u w : J, u = w → stableHash u = stableHash w := by
  constructor
  · have h₁ : serJ v₁ = serJ v₂ := by
      rw [← serJ_canonJ v₁ w₁, ← serJ_canonJ v₂ w₂]
      unfold KeyOrderEq at hk
      rw [hk]
    unfold stableHash
    rw [h₁]
  · intro u w huw
    rw [huw]

/-- Witness for C9 at two concretely reordered nested documents. -/
theorem C9_stable_hash_key_order_witness :
    (stableHash (.obj (.cons "a" (.num 1) (.cons "b"
        (.obj (.cons "x" .null (.cons "y" (.bool true) .nil))) .nil))) =
      stableHash (.obj (.cons "b" (.obj (.cons "y" (.bool true)
        (.cons "x" .null .nil))) (.cons "a" (.num 1) .nil))) ∧
     ∀ u w : J, u = w → stableHash u = stableHash w) :=
  C9_stable_hash_key_order
    (.obj (.cons "a" (.num 1) (.cons "b"
      (.obj (.cons "x" .null (.cons "y" (.bool true) .nil))) .nil)))
    (.obj (.cons "b" (.obj (.cons "y" (.bool true)
      (.cons "x" .null .nil))) (.cons "a" (.num 1) .nil)))
    (by
      unfold KeyOrderEq
      simp [canonJ, canonL, canonEntries, sortByFst, leFst, JObj.ofList,
        List.insertionSort, List.orderedInsert])
    (by decide) (by decide)

/-- C10: `load_state` returns the well-formed empty document (all five keys
`v`, `items`, `webhook_fp`, `tcache`, `torder`) when no state file exists;
a legacy document with a `messages` mapping and no `items` is migrated to
the `items` shape with each entry's `message_id` preserved, the result again
holding all five keys; and the `setdefault` path guarantees the five keys on
every loaded dict. -/
theorem C10_load_state (d msgs items' : JObj)
    (h₁ : d.get "messages" = some (.obj msgs))
    (h₂ : d.hasKey "items" = false)
    (h₃ : migrateEntries msgs = .ok items') :
    loadState none = .ok emptyStateDoc ∧
    docKeys emptyStateDoc = ["v", "items", "webhook_fp", "tcache", "torder"] ∧
    loadState (some (.obj d)) = .ok (.obj (migratedDoc items')) ∧
    docKeys (.obj (migratedDoc items')) =
      ["v", "items", "webhook_fp", "tcache", "torder"] ∧
    (∀ k v, msgs.get k = some (.obj v) →
      items'.get k = some (.obj (.cons "message_id" ((v.get "message_id").getD .null)
        (.cons "payload_hash" ((v.get "hash").getD .null) .nil)))) ∧
    (∀ d₀ : JObj,
      (applySetdefaults d₀).hasKey "v" = true ∧
      (applySetdefaults d₀).hasKey "items" = true ∧
      (applySetdefaults d₀).hasKey "webhook_fp" = true ∧
      (applySetdefaults d₀).hasKey "tcache" = true ∧
      (applySetdefaults d₀).hasKey "torder" = true) := by
  refine ⟨rfl, rfl, ?_, rfl, migrate_preserves msgs items' h₃, ?_⟩
  · have hmsg : d.hasKey "messages" = true := by
      unfold JObj.hasKey
      rw [h₁]
      rfl
    simp only [loadState, hmsg, h₂, h₁, h₃]
    rfl
  · intro d₀
    unfold applySetdefaults
    refine ⟨?_, ?_, ?_, ?_, ?_⟩
    · apply hasKey_setdefault_of
      apply hasKey_setdefault_of
      apply hasKey_setdefault_of
      apply hasKey_setdefault_of
      exact hasKey_setdefault_self d₀ "v" (.num 2)
    · apply hasKey_setdefault_of
      apply hasKey_setdefault_of
      apply hasKey_setdefault_of
      exact hasKey_setdefault_self _ "items" (.obj .nil)
    · apply hasKey_setdefault_of
      apply hasKey_setdefault_of
      exact hasKey_setdefault_self _ "webhook_fp" (.obj .nil)
    · apply hasKey_setdefault_of
      exact hasKey_setdefault_self _ "tcache" (.obj .nil)
    · exact hasKey_setdefault_self _ "torder" (.arr .nil)

/-- Witness for C10 at a concrete legacy document. -/
theorem C10_load_state_witness :
    loadState none = .ok emptyStateDoc ∧
    docKeys emptyStateDoc = ["v", "items", "webhook_fp", "tcache", "torder"] ∧
    loadState (some (.obj (.cons "messages" (.obj (.cons "k1"
        (.obj (.cons "message_id" (.str "9") (.cons "hash" (.str "h") .nil)))
        .nil)) .nil))) =
      .ok (.obj (migratedDoc (.cons "k1" (.obj (.cons "message_id" (.str "9")
        (.cons "payload_hash" (.str "h") .nil))) .nil))) ∧
    docKeys (.obj (migratedDoc (.cons "k1" (.obj (.cons "message_id" (.str "9")
        (.cons "payload_hash" (.str "h") .nil))) .nil))) =
      ["v", "items", "webhook_fp", "tcache", "torder"] ∧
    (∀ k v, (JObj.cons "k1" (.obj (.cons "message_id" (.str "9")
        (.cons "hash" (.str "h") .nil))) .nil).get k = some (.obj v) →
      (JObj.cons "k1" (.obj (.cons "message_id" (.str "9")
        (.cons "payload_hash" (.str "h") .nil))) .nil).get k =
        some (.obj (.cons "message_id" ((v.get "message_id").getD .null)
          (.cons "payload_hash" ((v.get "hash").getD .null) .nil)))) ∧
    (∀ d₀ : JObj,
      (applySetdefaults d₀).hasKey "v" = true ∧
      (applySetdefaults d₀).hasKey "items" = true ∧
      (applySetdefaults d₀).hasKey "webhook_fp" = true ∧
      (applySetdefaults d₀).hasKey "tcache" = true ∧
      (applySetdefaults d₀).hasKey "torder" = true) :=
  C10_load_state
    (.cons "messages" (.obj (.cons "k1" (.obj (.cons "message_id" (.str "9")
      (.cons "hash" (.str "h") .nil))) .nil)) .nil)
    (.cons "k1" (.obj (.cons "message_id" (.str "9")
      (.cons "hash" (.str "h") .nil))) .nil)
    (.cons "k1" (.obj (.cons "message_id" (.str "9")
      (.cons "payload_hash" (.str "h") .nil))) .nil)
    rfl rfl rfl
